import Mathlib

/-!
Shallow embedding of `key-forward` (src/main.rs), a one-shot CLI that
synthesizes X11 key and mouse-button events via the XTest extension.

The X11 client library is modelled as an environment `X11Env` recording the
responses the library would give; each operation of the `Display` wrapper is
embedded as a pure function from the environment to a result together with the
list of externally visible effects (fake events, flushes, output lines, and
the open and close of the display connection), in the order the code issues
them.
-/

/-- Responses of the X11 library, as consulted by `src/main.rs`.
`stringToKeysym` models `XStringToKeysym` (0 is `NoSymbol`);
`keysymToKeycode` models `XKeysymToKeycode` (a C `unsigned char`, embedded by
reducing mod 256 at the call site); `minKeycode`/`maxKeycode` are the values
written by `XDisplayKeycodes`; `keycodeToKeysym` models `XKeycodeToKeysym`
(keycode, shift index); `keysymToString` models `XKeysymToString`, `none`
standing for a NULL pointer and `some bs` for the bytes of the returned C
string; `openSucceeds` tells whether `XOpenDisplay` returns non-NULL. -/
structure X11Env where
  stringToKeysym : String → Nat
  keysymToKeycode : Nat → Nat
  minKeycode : Int
  maxKeycode : Int
  keycodeToKeysym : Nat → Nat → Nat
  keysymToString : Nat → Option (List Nat)
  openSucceeds : Bool

/-- Model of `ButtonState` from src/main.rs. -/
inductive ButtonState where
  | pressed
  | released
deriving DecidableEq

/-- Externally visible effects of one invocation, in issue order. -/
inductive Effect where
  | fakeKeyEvent (keycode : Nat) (pressed : Nat)
  | fakeButtonEvent (button : Nat) (pressed : Nat)
  | flush
  | openDisplay
  | closeDisplay
  | printLine (bytes : List Nat)
deriving DecidableEq

/-- Errors produced by `send_key` / `send_button`. `nulError` is the
`std::ffi::NulError` propagated by `CString::new(key)?`; the other three are
the `format!`-built errors of src/main.rs. -/
inductive SendError where
  | nulError
  | keyNotFound (key : String)
  | keycodeNotFound (key : String)
  | buttonOutOfRange (button : Nat)
deriving DecidableEq

/-- The `pressed` argument passed to `XTestFakeKeyEvent`/`XTestFakeButtonEvent`:
`ButtonState::Pressed => 1, ButtonState::Released => 0` (src/main.rs). -/
def pressedVal : ButtonState → Nat
  | ButtonState.pressed => 1
  | ButtonState.released => 0

/-- Whether the Rust `&str` contains a NUL byte, the condition on which
`CString::new` fails. -/
def strHasNul (s : String) : Bool :=
  s.data.any (fun c => c.toNat == 0)

/-- Model of `Display::send_key` (src/main.rs lines 117-138). `CString::new(key)?`
fails on an interior NUL; `XStringToKeysym` is compared against `NoSymbol`
after the `keysym as i32` truncation (hence the `% 2 ^ 32`); the keycode is a
C `unsigned char` (`% 256`) checked against the inclusive keycode range; on
success one fake key event is issued, then a flush. -/
def send_key (env : X11Env) (key : String) (state : ButtonState) :
    Except SendError Unit × List Effect :=
  if strHasNul key then (Except.error SendError.nulError, [])
  else
    let keysym := env.stringToKeysym key
    if keysym % 2 ^ 32 = 0 then (Except.error (SendError.keyNotFound key), [])
    else
      let keycode := env.keysymToKeycode keysym % 256
      if ¬ (env.minKeycode ≤ (keycode : Int) ∧ (keycode : Int) ≤ env.maxKeycode) then
        (Except.error (SendError.keycodeNotFound key), [])
      else
        (Except.ok (), [Effect.fakeKeyEvent keycode (pressedVal state), Effect.flush])

/-- Model of `Display::send_button` (src/main.rs lines 140-156): indices above 10 are
rejected; otherwise one fake button event is issued, then a flush. -/
def send_button (button : Nat) (state : ButtonState) :
    Except SendError Unit × List Effect :=
  if button > 10 then (Except.error (SendError.buttonOutOfRange button), [])
  else
    (Except.ok (), [Effect.fakeButtonEvent button (pressedVal state), Effect.flush])

/-- The keycodes visited by `for n in self.keycode_range()`: the inclusive
range `min..=max` reported by `XDisplayKeycodes` (empty when `max < min`). -/
def keycode_range (env : X11Env) : List Int :=
  (List.range (env.maxKeycode + 1 - env.minKeycode).toNat).map
    (fun i : Nat => env.minKeycode + (i : Int))

/-- Whether a continuation byte of a UTF-8 sequence. -/
def contByte (b : Nat) : Bool :=
  0x80 ≤ b && b ≤ 0xBF

/-- Strict UTF-8 validity of a byte sequence, as checked by Rust's
`str::from_utf8` (used by `CStr::to_str`): overlong encodings, surrogates and
code points above U+10FFFF are rejected. -/
def validUtf8 : List Nat → Bool
  | [] => true
  | b0 :: tail =>
    if b0 ≤ 0x7F then validUtf8 tail
    else
      match tail with
      | [] => false
      | b1 :: tail1 =>
        if 0xC2 ≤ b0 && b0 ≤ 0xDF then contByte b1 && validUtf8 tail1
        else
          match tail1 with
          | [] => false
          | b2 :: tail2 =>
            if b0 = 0xE0 then
              (0xA0 ≤ b1 && b1 ≤ 0xBF) && contByte b2 && validUtf8 tail2
            else if (0xE1 ≤ b0 && b0 ≤ 0xEC) || b0 = 0xEE || b0 = 0xEF then
              contByte b1 && contByte b2 && validUtf8 tail2
            else if b0 = 0xED then
              (0x80 ≤ b1 && b1 ≤ 0x9F) && contByte b2 && validUtf8 tail2
            else
              match tail2 with
              | [] => false
              | b3 :: tail3 =>
                if b0 = 0xF0 then
                  (0x90 ≤ b1 && b1 ≤ 0xBF) && contByte b2 && contByte b3 &&
                    validUtf8 tail3
                else if 0xF1 ≤ b0 && b0 ≤ 0xF3 then
                  contByte b1 && contByte b2 && contByte b3 && validUtf8 tail3
                else if b0 = 0xF4 then
                  (0x80 ≤ b1 && b1 ≤ 0x8F) && contByte b2 && contByte b3 &&
                    validUtf8 tail3
                else false

/-- The line `dump` emits for keycode `n`, if any: the keysym at shift index 0
of `n as u8` is resolved by `XKeysymToString`; a NULL name or a name whose
bytes fail UTF-8 decoding yields no line. -/
def emitLine (env : X11Env) (n : Int) : Option Effect :=
  match env.keysymToString (env.keycodeToKeysym ((n % 256).toNat) 0) with
  | none => none
  | some bytes =>
    if validUtf8 bytes then some (Effect.printLine bytes) else none

/-- The loop body of `Display::dump` (src/main.rs lines 100-115) over an
explicit list of keycodes. -/
def dumpGo (env : X11Env) : List Int → List Effect
  | [] => []
  | n :: rest =>
    match env.keysymToString (env.keycodeToKeysym ((n % 256).toNat) 0) with
    | none => dumpGo env rest
    | some bytes =>
      if validUtf8 bytes then Effect.printLine bytes :: dumpGo env rest
      else dumpGo env rest

/-- Model of `Display::dump`: iterate the keycode range in ascending order, printing
each resolvable, UTF-8-decodable keysym name. It returns no error. -/
def dump (env : X11Env) : List Effect :=
  dumpGo env (keycode_range env)

/-- The command line as handed to the argument parser: the positional key
name, the `--mouse` flag (outer `Option`: flag present; inner: a value was
attached), and the `--release` / `--dump` flags. -/
structure RawOpts where
  key : Option String
  mouse : Option (Option String)
  release : Bool
  dump : Bool

/-- Model of `Opts` from src/main.rs, as produced by a successful parse. -/
structure Opts where
  key : Option String
  mouse_button : Option Nat
  release : Bool
  dump : Bool
deriving DecidableEq

/-- How many of the three mutually exclusive actions the command line
selects. -/
def actionsCount (raw : RawOpts) : Nat :=
  (if raw.key.isSome then 1 else 0) + (if raw.mouse.isSome then 1 else 0) +
    (if raw.dump then 1 else 0)

/-- Rust's `u32::from_str`, used by structopt for the `--mouse` value: an
optional leading plus sign, then one or more ASCII digits, fitting in 32
bits. -/
def parseU32 (s : String) : Option Nat :=
  let digits :=
    match s.data with
    | '+' :: rest => rest
    | cs => cs
  if digits.isEmpty then none
  else if digits.all (fun c => c.isDigit) then
    let v := digits.foldl (fun acc c => acc * 10 + (c.toNat - 48)) 0
    if v < 2 ^ 32 then some v else none
  else none

/-- The structopt rules on `Opts` (src/main.rs lines 8-39): each of `key`,
`mouse` and `dump` is required unless one of the other two is given, and
conflicts with both — i.e. exactly one action — and the `--mouse` value must
be present and parse as a `u32`. -/
def parseOpts (raw : RawOpts) : Option Opts :=
  if actionsCount raw = 1 then
    match raw.mouse with
    | none => some ⟨raw.key, none, raw.release, raw.dump⟩
    | some none => none
    | some (some s) =>
      match parseU32 s with
      | none => none
      | some v => some ⟨raw.key, some v, raw.release, raw.dump⟩
  else none

/-- Outcome of one invocation of `main`. `panicked` is the `unreachable!`
arm of the dispatch match. -/
inductive MainError where
  | connectionError
  | argumentError
  | sendError (e : SendError)
deriving DecidableEq

/-- Result of running `main` to completion. -/
inductive MainResult where
  | ok
  | err (e : MainError)
  | panicked
deriving DecidableEq

/-- Wrap an operation result into the result of `main` (the `?` operator). -/
def liftSend : Except SendError Unit × List Effect → MainResult × List Effect
  | (Except.ok _, es) => (MainResult.ok, es)
  | (Except.error e, es) => (MainResult.err (MainError.sendError e), es)

/-- The body of `main` after the connection is open (src/main.rs lines 45-64):
dump, or dispatch on `(key, mouse_button)` with the transition chosen by
`--release`; the wildcard arm is `unreachable!`. -/
def runAction (env : X11Env) (o : Opts) : MainResult × List Effect :=
  if o.dump then (MainResult.ok, dump env)
  else
    let state := if o.release then ButtonState.released else ButtonState.pressed
    match o.key, o.mouse_button with
    | some k, none => liftSend (send_key env k state)
    | none, some m => liftSend (send_button m state)
    | _, _ => (MainResult.panicked, [])

/-- One whole invocation: parse, open the display (`Display::new`), run the
selected action, and close the display when the `Display` is dropped — also
on error and panic-unwind paths. A failed parse or a failed open produces no
effects besides its error. -/
def mainRun (raw : RawOpts) (env : X11Env) : MainResult × List Effect :=
  match parseOpts raw with
  | none => (MainResult.err MainError.argumentError, [])
  | some o =>
    if env.openSucceeds then
      let r := runAction env o
      (r.fst, Effect.openDisplay :: r.snd ++ [Effect.closeDisplay])
    else (MainResult.err MainError.connectionError, [])

/-- An environment in which the key name "a" resolves to keysym 38, bound to
keycode 38 inside the keycode range 8..=255. -/
def envS : X11Env :=
  { stringToKeysym := fun s => if s = "a" then 38 else 0
    keysymToKeycode := fun _ => 38
    minKeycode := 8
    maxKeycode := 255
    keycodeToKeysym := fun _ _ => 0
    keysymToString := fun _ => none
    openSucceeds := true }

/-- An environment with keycode range 1..=3 in which keycode 1 has the
UTF-8 name "hi" ([104, 105]), keycode 2 has a resolvable name whose single
byte 255 is not valid UTF-8, and keycode 3 has no name. -/
def envD : X11Env :=
  { stringToKeysym := fun _ => 0
    keysymToKeycode := fun _ => 0
    minKeycode := 1
    maxKeycode := 3
    keycodeToKeysym := fun n _ => n
    keysymToString := fun k =>
      if k = 1 then some [104, 105] else if k = 2 then some [255] else none
    openSucceeds := true }

/-- An environment whose symbol table resolves no name at all. -/
def envNoSym : X11Env :=
  { stringToKeysym := fun _ => 0
    keysymToKeycode := fun _ => 0
    minKeycode := 8
    maxKeycode := 255
    keycodeToKeysym := fun _ _ => 0
    keysymToString := fun _ => none
    openSucceeds := true }

/-- A command line selecting only the key action for "a". -/
def rawKey : RawOpts := ⟨some "a", none, false, false⟩

/-- A command line selecting the key action for "a" with `--release`. -/
def rawRel : RawOpts := ⟨some "a", none, true, false⟩

/-- The parse of `rawRel`. -/
def optsRel : Opts := ⟨some "a", none, true, false⟩

/-- The parse of `rawKey`. -/
def optsKey : Opts := ⟨some "a", none, false, false⟩

/-- A command line illegally selecting both the key and the mouse action. -/
def rawBoth : RawOpts := ⟨some "a", some (some "3"), false, false⟩

/-- A command line selecting only `--dump`. -/
def rawDump : RawOpts := ⟨none, none, false, true⟩

/-- The command lines on which the argument parser fails: not exactly one
action, a `--mouse` flag without a value, or a `--mouse` value that does not
parse as a `u32`. -/
def badArgs (raw : RawOpts) : Prop :=
  actionsCount raw ≠ 1 ∨ raw.mouse = some none ∨
    ∃ s, raw.mouse = some (some s) ∧ parseU32 s = none

theorem dumpGo_eq_filterMap (env : X11Env) (l : List Int) :
    dumpGo env l = l.filterMap (emitLine env) := by
  induction l with
  | nil => rfl
  | cons n rest ih =>
    simp only [dumpGo, List.filterMap_cons, emitLine]
    cases h : env.keysymToString (env.keycodeToKeysym ((n % 256).toNat) 0) with
    | none => simpa using ih
    | some bytes =>
      by_cases hv : validUtf8 bytes = true
      · simpa [hv] using ih
      · simp only [Bool.not_eq_true] at hv
        simpa [hv] using ih

theorem keycode_range_sorted (env : X11Env) :
    List.Pairwise (· < ·) (keycode_range env) := by
  unfold keycode_range
  rw [List.pairwise_map]
  refine (List.pairwise_lt_range _).imp ?_
  intro a b hab
  omega

theorem mem_keycode_range (env : X11Env) (n : Int) :
    n ∈ keycode_range env ↔ env.minKeycode ≤ n ∧ n ≤ env.maxKeycode := by
  unfold keycode_range
  simp only [List.mem_map, List.mem_range]
  constructor
  · rintro ⟨i, hi, rfl⟩
    omega
  · rintro ⟨h1, h2⟩
    exact ⟨(n - env.minKeycode).toNat, by omega, by omega⟩

theorem liftSend_snd (r : Except SendError Unit × List Effect) :
    (liftSend r).snd = r.snd := by
  obtain ⟨e, es⟩ := r
  cases e <;> rfl

theorem liftSend_fst_ne_panicked (r : Except SendError Unit × List Effect) :
    (liftSend r).fst ≠ MainResult.panicked := by
  obtain ⟨e, es⟩ := r
  cases e <;> simp [liftSend]

theorem send_key_effects (env : X11Env) (key : String) (st : ButtonState) :
    (send_key env key st).snd = [] ∨
    (send_key env key st).snd =
      [Effect.fakeKeyEvent (env.keysymToKeycode (env.stringToKeysym key) % 256)
        (pressedVal st), Effect.flush] := by
  simp only [send_key]
  split
  · simp
  · split
    · simp
    · split
      · simp
      · simp

theorem send_button_effects (b : Nat) (st : ButtonState) :
    (send_button b st).snd = [] ∨
    (send_button b st).snd = [Effect.fakeButtonEvent b (pressedVal st), Effect.flush] := by
  unfold send_button
  split <;> simp

theorem dump_mem_shape (env : X11Env) (e : Effect) (he : e ∈ dump env) :
    ∃ bs, e = Effect.printLine bs := by
  rw [dump, dumpGo_eq_filterMap] at he
  obtain ⟨n, _, hemit⟩ := List.mem_filterMap.mp he
  unfold emitLine at hemit
  revert hemit
  cases env.keysymToString (env.keycodeToKeysym ((n % 256).toNat) 0) with
  | none => simp
  | some bytes =>
    dsimp only
    split
    · rintro ⟨⟩
      exact ⟨bytes, rfl⟩
    · simp

theorem runAction_no_open_close (env : X11Env) (o : Opts) :
    Effect.openDisplay ∉ (runAction env o).snd ∧
    Effect.closeDisplay ∉ (runAction env o).snd := by
  unfold runAction
  by_cases hd : o.dump
  · simp only [hd, if_true]
    constructor <;> intro hmem <;>
      obtain ⟨bs, hbs⟩ := dump_mem_shape env _ hmem <;> cases hbs
  · rw [if_neg hd]
    cases hk : o.key <;> cases hm : o.mouse_button <;> dsimp only
    · simp
    · rw [liftSend_snd]
      rcases send_button_effects _
          (if o.release then ButtonState.released else ButtonState.pressed) with h | h <;>
        · rw [h]
          simp
    · rw [liftSend_snd]
      rcases send_key_effects env _
          (if o.release then ButtonState.released else ButtonState.pressed) with h | h <;>
        · rw [h]
          simp
    · simp

theorem parseOpts_shape {raw : RawOpts} {o : Opts} (h : parseOpts raw = some o) :
    (o.key.isSome ∧ o.mouse_button = none ∧ o.dump = false) ∨
    (o.key = none ∧ o.mouse_button.isSome ∧ o.dump = false) ∨
    (o.key = none ∧ o.mouse_button = none ∧ o.dump = true) := by
  obtain ⟨k, m, r, d⟩ := raw
  unfold parseOpts actionsCount at h
  rcases m with _ | m
  · rcases k with _ | k <;> cases d <;> simp at h <;> subst h <;> simp
  · rcases m with _ | s
    · rcases k with _ | k <;> cases d <;> simp at h
    · rcases k with _ | k <;> cases d <;> simp at h <;>
        rcases hp : parseU32 s with _ | v <;> rw [hp] at h <;>
        simp at h <;> subst h <;> simp

/-- Claim C1 (counterexample): for a key name containing an interior NUL byte
that resolves to no keysym in the symbol table, `send_key` does not fail with
the key-not-found error — it fails with the C-string conversion error — so
the failure mode is not `KeyNotFoundError` exactly when the name resolves to
no keysym. -/
theorem send_key_nul_not_keyNotFound :
    strHasNul "a\x00b" = true ∧
    envNoSym.stringToKeysym "a\x00b" = 0 ∧
    (send_key envNoSym "a\x00b" ButtonState.pressed).fst = Except.error SendError.nulError ∧
    SendError.nulError ≠ SendError.keyNotFound "a\x00b" ∧
    (send_key envNoSym "a\x00b" ButtonState.pressed).snd = [] :=
  ⟨rfl, rfl, rfl, by decide, rfl⟩

/-- Claim C1 (amended): for every NUL-free key name whose keysym fits in 32
bits, `send_key` fails with `KeyNotFoundError` exactly when the name resolves
to no keysym, otherwise fails with `KeycodeNotFoundError` exactly when the
resolved keycode lies outside the valid keycode interval, and in both failure
cases zero synthesized events are issued. -/
theorem send_key_error_taxonomy (env : X11Env) (key : String) (st : ButtonState)
    (hnul : strHasNul key = false) (hks : env.stringToKeysym key < 2 ^ 32) :
    (env.stringToKeysym key = 0 →
      send_key env key st = (Except.error (SendError.keyNotFound key), [])) ∧
    (env.stringToKeysym key ≠ 0 →
      ((¬ (env.minKeycode ≤ ((env.keysymToKeycode (env.stringToKeysym key) % 256 : Nat) : Int) ∧
           ((env.keysymToKeycode (env.stringToKeysym key) % 256 : Nat) : Int) ≤ env.maxKeycode)) →
        send_key env key st = (Except.error (SendError.keycodeNotFound key), [])) ∧
      ((env.minKeycode ≤ ((env.keysymToKeycode (env.stringToKeysym key) % 256 : Nat) : Int) ∧
        ((env.keysymToKeycode (env.stringToKeysym key) % 256 : Nat) : Int) ≤ env.maxKeycode) →
        (send_key env key st).fst = Except.ok ())) := by
  have hmod : env.stringToKeysym key % 2 ^ 32 = env.stringToKeysym key := Nat.mod_eq_of_lt hks
  have hnul2 : ¬ (strHasNul key = true) := by simp [hnul]
  refine ⟨?_, ?_⟩
  · intro h0
    simp only [send_key]
    rw [if_neg hnul2, hmod, if_pos h0]
  · intro hne
    refine ⟨?_, ?_⟩
    · intro hout
      simp only [send_key]
      rw [if_neg hnul2, hmod, if_neg hne, if_pos hout]
    · intro hin
      simp only [send_key]
      rw [if_neg hnul2, hmod, if_neg hne, if_neg (not_not_intro hin)]

/-- Claim C1 (witness): in `envS` the name "a" resolves to a bound keycode and
`send_key` succeeds. -/
theorem send_key_error_taxonomy_witness :
    (send_key envS "a" ButtonState.pressed).fst = Except.ok () := by
  have h := send_key_error_taxonomy envS "a" ButtonState.pressed rfl (by decide)
  exact (h.2 (by decide)).2 (by decide)

/-- Claim C2: `send_button` succeeds exactly for button indices 0..=10,
issuing one fake button event of the requested transition followed by a
flush; indices above 10 fail with `ButtonOutOfRangeError` and issue zero
events. -/
theorem send_button_range_check (b : Nat) (st : ButtonState) :
    (b ≤ 10 →
      send_button b st =
        (Except.ok (), [Effect.fakeButtonEvent b (pressedVal st), Effect.flush])) ∧
    (b > 10 → send_button b st = (Except.error (SendError.buttonOutOfRange b), [])) ∧
    ((send_button b st).fst = Except.ok () ↔ b ≤ 10) := by
  refine ⟨?_, ?_, ?_⟩
  · intro h
    simp [send_button, Nat.not_lt.mpr h]
  · intro h
    simp [send_button, h]
  · unfold send_button
    split
    · next h =>
      simp
      omega
    · next h =>
      simp
      omega

/-- Claim C2 (witness): button 11 fails with the out-of-range error and zero
events. -/
theorem send_button_range_check_witness :
    send_button 11 ButtonState.pressed = (Except.error (SendError.buttonOutOfRange 11), []) :=
  (send_button_range_check 11 ButtonState.pressed).2.1 (by decide)

/-- Claim C3: every successful `send_key` call synthesizes exactly one fake
key event carrying the resolved keycode and the requested transition (press
is 1, release is 0), followed immediately by a flush, within the same
invocation. -/
theorem send_key_success_one_event_then_flush (env : X11Env) (key : String)
    (st : ButtonState) (h : (send_key env key st).fst = Except.ok ()) :
    (send_key env key st).snd =
      [Effect.fakeKeyEvent (env.keysymToKeycode (env.stringToKeysym key) % 256)
        (pressedVal st), Effect.flush] ∧
    pressedVal ButtonState.pressed = 1 ∧ pressedVal ButtonState.released = 0 := by
  refine ⟨?_, rfl, rfl⟩
  simp only [send_key] at h ⊢
  split at h
  · exact absurd h (by simp)
  · next hc =>
    rw [if_neg hc]
    split at h
    · exact absurd h (by simp)
    · next hc2 =>
      rw [if_neg hc2]
      split at h
      · exact absurd h (by simp)
      · next hc3 =>
        rw [if_neg hc3]

/-- Claim C3 (witness): the successful send of "a" in `envS` issues exactly
the fake key event for keycode 38 with pressed flag 1, then a flush. -/
theorem send_key_success_one_event_then_flush_witness :
    (send_key envS "a" ButtonState.pressed).snd =
      [Effect.fakeKeyEvent 38 1, Effect.flush] ∧
    pressedVal ButtonState.pressed = 1 ∧ pressedVal ButtonState.released = 0 :=
  send_key_success_one_event_then_flush envS "a" ButtonState.pressed rfl

/-- Claim C4 (counterexample): in `envD` keycode 2 has a resolvable
(non-NULL) keysym name, the single byte 255, yet `dump` emits no line for it
because the name is not valid UTF-8 — so the output does not contain one
line per keycode with a resolvable name. -/
theorem dump_skips_resolvable_non_utf8_name :
    (envD.keysymToString (envD.keycodeToKeysym ((2 : Int) % 256).toNat 0)).isSome = true ∧
    (2 : Int) ∈ keycode_range envD ∧
    dump envD = [Effect.printLine [104, 105]] ∧
    (dump envD).length ≠
      ((keycode_range envD).filter
        (fun n => (envD.keysymToString (envD.keycodeToKeysym ((n % 256).toNat) 0)).isSome)).length :=
  ⟨rfl, by decide, rfl, by decide⟩

/-- Claim C4 (amended): `dump` visits every keycode of the inclusive interval
reported by the session in ascending order and emits exactly one line for
each keycode whose canonical keysym has a resolvable name that decodes as
UTF-8, silently skipping the rest; it produces output only, never an
error. -/
theorem dump_lines_exactly_utf8_resolvable (env : X11Env) :
    dump env = (keycode_range env).filterMap (emitLine env) ∧
    List.Pairwise (· < ·) (keycode_range env) ∧
    (∀ n : Int, n ∈ keycode_range env ↔ env.minKeycode ≤ n ∧ n ≤ env.maxKeycode) :=
  ⟨dumpGo_eq_filterMap env _, keycode_range_sorted env, fun n => mem_keycode_range env n⟩

/-- Claim C5: for every parsed invocation selecting the key or the mouse
action, the transition passed to the operation is Released when `--release`
is present and Pressed when it is absent, identically for both actions. -/
theorem release_flag_selects_transition (raw : RawOpts) (env : X11Env) (o : Opts)
    (h : parseOpts raw = some o) :
    (∀ k, o.key = some k →
      runAction env o = liftSend (send_key env k
        (if o.release then ButtonState.released else ButtonState.pressed))) ∧
    (∀ m, o.mouse_button = some m →
      runAction env o = liftSend (send_button m
        (if o.release then ButtonState.released else ButtonState.pressed))) := by
  have shape := parseOpts_shape h
  constructor
  · intro k hk
    rcases shape with ⟨_, hm, hd⟩ | ⟨hk0, _, _⟩ | ⟨hk0, _, _⟩
    · unfold runAction
      rw [hd, hk, hm]
      simp
    · rw [hk0] at hk
      cases hk
    · rw [hk0] at hk
      cases hk
  · intro m hm
    rcases shape with ⟨_, hm0, _⟩ | ⟨hk0, _, hd⟩ | ⟨_, hm0, _⟩
    · rw [hm0] at hm
      cases hm
    · unfold runAction
      rw [hd, hk0, hm]
      simp
    · rw [hm0] at hm
      cases hm

/-- Claim C5 (witness): for the parsed command line "a --release" the key
action is dispatched with the Released transition. -/
theorem release_flag_selects_transition_witness :
    runAction envS optsRel = liftSend (send_key envS "a" ButtonState.released) := by
  have h := (release_flag_selects_transition rawRel envS optsRel rfl).1 "a" rfl
  simpa using h

/-- Claim C6: whenever the command line selects zero actions or more than one
action, or carries a missing or malformed `--mouse` value, the invocation
fails with the argument error and produces no effect at all — in particular
no display connection is opened. -/
theorem bad_args_fail_before_open (raw : RawOpts) (env : X11Env) (h : badArgs raw) :
    mainRun raw env = (MainResult.err MainError.argumentError, []) ∧
    Effect.openDisplay ∉ (mainRun raw env).snd := by
  have hp : parseOpts raw = none := by
    unfold parseOpts
    rcases h with h | h | ⟨s, hs, hps⟩
    · rw [if_neg h]
    · split_ifs with hc
      · simp [h]
      · rfl
    · split_ifs with hc
      · simp [hs, hps]
      · rfl
  refine ⟨?_, ?_⟩ <;> simp [mainRun, hp]

/-- Claim C6 (witness): selecting both a key name and `--mouse` fails
argument validation with no connection opened. -/
theorem bad_args_fail_before_open_witness :
    mainRun rawBoth envS = (MainResult.err MainError.argumentError, []) ∧
    Effect.openDisplay ∉ (mainRun rawBoth envS).snd :=
  bad_args_fail_before_open rawBoth envS (Or.inl (by decide))

/-- Claim C7: in every invocation whose effect trace contains a successful
connection open, the connection is closed exactly once (and opened exactly
once), on every path — success, key or button failure, and dump. -/
theorem connection_closed_exactly_once (raw : RawOpts) (env : X11Env)
    (h : Effect.openDisplay ∈ (mainRun raw env).snd) :
    (mainRun raw env).snd.count Effect.openDisplay = 1 ∧
    (mainRun raw env).snd.count Effect.closeDisplay = 1 := by
  unfold mainRun at h ⊢
  cases hp : parseOpts raw with
  | none =>
    rw [hp] at h
    simp at h
  | some o =>
    rw [hp] at h
    dsimp only at h ⊢
    by_cases ho : env.openSucceeds
    · rw [if_pos ho] at h ⊢
      dsimp only at h ⊢
      have hno := runAction_no_open_close env o
      have h1 : (runAction env o).snd.count Effect.openDisplay = 0 :=
        List.count_eq_zero.mpr hno.1
      have h2 : (runAction env o).snd.count Effect.closeDisplay = 0 :=
        List.count_eq_zero.mpr hno.2
      constructor <;>
        simp [List.count_cons, List.count_append, List.count_nil, h1, h2]
    · rw [if_neg ho] at h
      simp at h

/-- Claim C7 (witness): the dump invocation in `envD` opens and closes the
connection exactly once. -/
theorem connection_closed_exactly_once_witness :
    (mainRun rawDump envD).snd.count Effect.openDisplay = 1 ∧
    (mainRun rawDump envD).snd.count Effect.closeDisplay = 1 :=
  connection_closed_exactly_once rawDump envD (by decide)

/-- Claim C8: under the argument-parser guarantees, the `unreachable!` arm of
the dispatch in `main` is never reached: no successfully parsed invocation
ever panics. -/
theorem parsed_invocation_never_panics (raw : RawOpts) (env : X11Env) (o : Opts)
    (h : parseOpts raw = some o) :
    (mainRun raw env).fst ≠ MainResult.panicked := by
  unfold mainRun
  rw [h]
  dsimp only
  by_cases ho : env.openSucceeds
  · rw [if_pos ho]
    dsimp only
    have shape := parseOpts_shape h
    unfold runAction
    by_cases hd : o.dump
    · rw [if_pos hd]
      simp
    · rw [if_neg hd]
      rcases shape with ⟨hk, hm, _⟩ | ⟨hk, hm, _⟩ | ⟨_, _, hdt⟩
      · obtain ⟨k, hk2⟩ := Option.isSome_iff_exists.mp hk
        rw [hk2, hm]
        dsimp only
        exact liftSend_fst_ne_panicked _
      · obtain ⟨m, hm2⟩ := Option.isSome_iff_exists.mp hm
        rw [hk, hm2]
        dsimp only
        exact liftSend_fst_ne_panicked _
      · exact absurd hdt hd
  · rw [if_neg ho]
    simp

/-- Claim C8 (witness): the parsed invocation selecting key "a" does not
panic. -/
theorem parsed_invocation_never_panics_witness :
    (mainRun rawKey envS).fst ≠ MainResult.panicked :=
  parsed_invocation_never_panics rawKey envS optsKey rfl

/-- Claim C9: for every key name containing an interior NUL byte, `send_key`
fails with the C-string conversion error before any keysym lookup — the
result does not depend on the environment at all — and issues zero
synthesized events. -/
theorem send_key_interior_nul_short_circuit (env env2 : X11Env) (key : String)
    (st : ButtonState) (h : strHasNul key = true) :
    send_key env key st = (Except.error SendError.nulError, []) ∧
    send_key env key st = send_key env2 key st := by
  constructor
  · simp [send_key, h]
  · simp [send_key, h]

/-- Claim C9 (witness): the name consisting of one NUL byte fails with the
conversion error, identically in two different environments. -/
theorem send_key_interior_nul_short_circuit_witness :
    send_key envS "\x00" ButtonState.pressed = (Except.error SendError.nulError, []) ∧
    send_key envS "\x00" ButtonState.pressed = send_key envD "\x00" ButtonState.pressed :=
  send_key_interior_nul_short_circuit envS envD "\x00" ButtonState.pressed rfl

/-- Claim C10: every line `dump` emits comes from a keycode of the valid
interval whose keysym at shift index 0 has a resolvable name with valid
UTF-8 bytes; a byte sequence that is not valid UTF-8 is never emitted. -/
theorem dump_emits_only_utf8_at_index_zero (env : X11Env) :
    (∀ e, e ∈ dump env → ∃ n, n ∈ keycode_range env ∧ ∃ bs,
      env.keysymToString (env.keycodeToKeysym ((n % 256).toNat) 0) = some bs ∧
      validUtf8 bs = true ∧ e = Effect.printLine bs) ∧
    (∀ bs, validUtf8 bs = false → Effect.printLine bs ∉ dump env) := by
  have hchar : ∀ e, e ∈ dump env → ∃ n, n ∈ keycode_range env ∧ ∃ bs,
      env.keysymToString (env.keycodeToKeysym ((n % 256).toNat) 0) = some bs ∧
      validUtf8 bs = true ∧ e = Effect.printLine bs := by
    intro e he
    rw [dump, dumpGo_eq_filterMap] at he
    obtain ⟨n, hn, hemit⟩ := List.mem_filterMap.mp he
    refine ⟨n, hn, ?_⟩
    unfold emitLine at hemit
    revert hemit
    cases hl : env.keysymToString (env.keycodeToKeysym ((n % 256).toNat) 0) with
    | none => simp
    | some bytes =>
      dsimp only
      split
      · next hv =>
        rintro ⟨⟩
        exact ⟨bytes, rfl, hv, rfl⟩
      · simp
  refine ⟨hchar, ?_⟩
  intro bs hv hmem
  obtain ⟨n, _, bs2, _, hv2, heq⟩ := hchar _ hmem
  injection heq with hbs
  subst hbs
  rw [hv] at hv2
  exact Bool.noConfusion hv2

/-- Claim C10 (witness): the line "hi" emitted by `dump` in `envD` traces
back to an in-range keycode with a UTF-8-valid resolvable name at shift
index 0. -/
theorem dump_emits_only_utf8_at_index_zero_witness :
    ∃ n, n ∈ keycode_range envD ∧ ∃ bs,
      envD.keysymToString (envD.keycodeToKeysym ((n % 256).toNat) 0) = some bs ∧
      validUtf8 bs = true ∧ Effect.printLine [104, 105] = Effect.printLine bs :=
  (dump_emits_only_utf8_at_index_zero envD).1 (Effect.printLine [104, 105]) (by decide)
